import Mathlib

/-!
Formal model of the Vapor LLM gateway core: protocol adapters, token
estimation, stream re-encoding, billing and the chat-completions
orchestrator, embedded shallowly from the JavaScript source
(`src/providers/adapter.js`, `functions/v1/index.js`).

JavaScript numbers are modelled as `ℚ`, strings as Lean `String`,
absent / `undefined` fields as `Option`, and JavaScript's `x || d`
defaulting (which treats `0`, `""`, `undefined` as falsy) by explicit
`jsOr*` helpers.
-/

/-- JavaScript `x || d` for an optional number: `undefined` and `0` are falsy. -/
def jsOrNat (x : Option ℕ) (d : ℕ) : ℕ :=
  match x with
  | none => d
  | some n => if n = 0 then d else n

/-- JavaScript `x || d` for an optional string: `undefined` and `""` are falsy. -/
def jsOrStr (x : Option String) (d : String) : String :=
  match x with
  | none => d
  | some s => if s = "" then d else s

/-- JavaScript `Math.ceil` on a non-negative rational, as a natural number. -/
def jsCeil (q : ℚ) : ℕ := (Int.ceil q).toNat

/-- A character in the CJK unified-ideograph range `一`–`鿿`,
matching the regex in `estimateTokens`. -/
def isCJK (c : Char) : Bool := 0x4e00 ≤ c.toNat && c.toNat ≤ 0x9fff

/-- Number of CJK characters of a string (the `text.match(...)` count). -/
def countCJK (s : String) : ℕ := (s.data.filter isCJK).length

/-- Token estimate of one text value (`estimateTokens` in `adapter.js`):
`undefined` and the empty string are falsy and estimate to `0`; otherwise
CJK characters cost `1/1.5` token and all others `1/4`, and the sum is
rounded up. -/
def estimateTokens (t : Option String) : ℕ :=
  match t with
  | none => 0
  | some s =>
    if s = "" then 0
    else
      let chineseChars : ℕ := countCJK s
      let otherChars : ℕ := s.length - chineseChars
      jsCeil ((chineseChars : ℚ) / 1.5 + (otherChars : ℚ) / 4)

/-- Evaluation bridge: the ceiling of `n / 12` over `ℚ` is `(n + 11) / 12`
in natural-number arithmetic. -/
lemma jsCeil_div_twelve (n : ℕ) : jsCeil ((n : ℚ) / 12) = (n + 11) / 12 := by
  unfold jsCeil
  have key : Int.ceil ((n : ℚ) / 12) = -((-(n : ℤ)) / ((12 : ℕ) : ℤ)) := by
    have e : ((n : ℚ) / 12 : ℚ) = -((Int.cast (-(n : ℤ)) : ℚ) / ((12 : ℕ) : ℚ)) := by
      push_cast; ring
    rw [e, Int.ceil_neg, Rat.floor_intCast_div_natCast]
  rw [key]
  omega

/-- Evaluation bridge: the ceiling of `n / 4` over `ℚ` is `(n + 3) / 4`
in natural-number arithmetic. -/
lemma jsCeil_div_four (n : ℕ) : jsCeil ((n : ℚ) / 4) = (n + 3) / 4 := by
  unfold jsCeil
  have key : Int.ceil ((n : ℚ) / 4) = -((-(n : ℤ)) / ((4 : ℕ) : ℤ)) := by
    have e : ((n : ℚ) / 4 : ℚ) = -((Int.cast (-(n : ℤ)) : ℚ) / ((4 : ℕ) : ℚ)) := by
      push_cast; ring
    rw [e, Int.ceil_neg, Rat.floor_intCast_div_natCast]
  rw [key]
  omega

/-- The per-string token cost rewritten to natural-number arithmetic. -/
lemma jsCeil_cjk_mix (c o : ℕ) :
    jsCeil ((c : ℚ) / 1.5 + (o : ℚ) / 4) = (8 * c + 3 * o + 11) / 12 := by
  have h : ((c : ℚ) / 1.5 + (o : ℚ) / 4) = ((8 * c + 3 * o : ℕ) : ℚ) / 12 := by
    push_cast
    norm_num
    ring
  rw [h, jsCeil_div_twelve]

/-- Closed natural-number form of `estimateTokens`, used to evaluate it. -/
lemma estimateTokens_eq (s : String) :
    estimateTokens (some s) =
      if s = "" then 0
      else (8 * countCJK s + 3 * (s.length - countCJK s) + 11) / 12 := by
  have h : estimateTokens (some s) =
      if s = "" then 0
      else jsCeil ((countCJK s : ℚ) / 1.5 + ((s.length - countCJK s : ℕ) : ℚ) / 4) := rfl
  rw [h]
  split
  · rfl
  · exact jsCeil_cjk_mix _ _

example : estimateTokens (some "Hello!") = 2 := by
  rw [estimateTokens_eq]; decide
example : estimateTokens (some "你好") = 2 := by
  rw [estimateTokens_eq]; decide
example : estimateTokens none = 0 := rfl

/-! ## Canonical request data model -/

/-- Truthiness of an optional string (JavaScript: `undefined` and `""` are falsy). -/
def jsTruthyStr (x : Option String) : Bool :=
  match x with
  | none => false
  | some s => s ≠ ""

/-- A typed part of a multipart message content (`{type, text}`). -/
structure ContentPart where
  type : String
  text : Option String
deriving DecidableEq

/-- Message content: either a plain string or an array of typed parts. -/
inductive MsgContent where
  | str (s : String)
  | parts (l : List ContentPart)
deriving DecidableEq

/-- A canonical chat message. -/
structure Message where
  role : String
  content : MsgContent
deriving DecidableEq

/-- A part of an inbound Gemini-format `contents` entry. -/
structure GeminiPart where
  text : Option String
deriving DecidableEq

/-- An inbound Gemini-format `contents` entry. -/
structure GeminiContent where
  role : Option String
  parts : Option (List GeminiPart)
deriving DecidableEq

/-- A `stop` value: single string or array of strings. -/
inductive StopVal where
  | one (s : String)
  | many (l : List String)
deriving DecidableEq

/-- The parsed JSON request body, with the fields the gateway reads. -/
structure Body where
  model : Option String
  messages : Option (List Message)
  contents : Option (List GeminiContent)
  stream : Bool
  max_tokens : Option ℕ
  temperature : Option ℚ
  top_p : Option ℚ
  stop : Option StopVal
  anthropic_version : Bool
deriving DecidableEq

/-! Provider type string constants (`ProviderType` in `adapter.js`). -/

namespace ProviderType

def OPENAI : String := "openai"

def ANTHROPIC : String := "anthropic"

def GEMINI : String := "gemini"

end ProviderType

/-- Request-format detection (`detectRequestFormat` in `adapter.js`). -/
def detectRequestFormat (body : Body) : String :=
  if body.anthropic_version ||
      (match body.messages with
        | some (msg :: _) =>
          (match msg.content with
            | .str s => s ≠ "" && false      -- truthy string is not `typeof === 'object'`
            | .parts _ => true)
        | _ => false) then
    ProviderType.ANTHROPIC
  else if body.contents.isSome then
    ProviderType.GEMINI
  else
    ProviderType.OPENAI

/-- Input-token estimate over a request body
(`estimateInputTokens` in `adapter.js`): sums per-text-segment estimates
over OpenAI-format `messages` and Gemini-format `contents`. -/
def estimateInputTokens (body : Body) : ℕ :=
  let fromMessages :=
    match body.messages with
    | none => 0
    | some msgs =>
      (msgs.map (fun msg =>
        match msg.content with
        | .str s => estimateTokens (some s)
        | .parts l =>
          (l.map (fun part =>
            if part.type = "text" then estimateTokens part.text else 0)).sum)).sum
  let fromContents :=
    match body.contents with
    | none => 0
    | some cs =>
      (cs.map (fun content =>
        ((content.parts.getD []).map (fun part =>
          if jsTruthyStr part.text then estimateTokens part.text else 0)).sum)).sum
  fromMessages + fromContents

/-! ## Outbound format adapters (`OpenAIAdapter` in `adapter.js`) -/

/-- JavaScript string coercion of a message content value, as it occurs in
`system += ... + msg.content`: a string stays itself; an array coerces via
`Array.prototype.toString` (elements joined by `,`, objects as
`[object Object]`). -/
def jsStringOfContent : MsgContent → String
  | .str s => s
  | .parts l => String.intercalate "," (l.map (fun _ => "[object Object]"))

/-- Normalization of `stop` into `stop_sequences`
(`body.stop ? (Array.isArray(body.stop) ? body.stop : [body.stop]) : undefined`). -/
def normalizeStop : Option StopVal → Option (List String)
  | none => none
  | some (.one s) => if s = "" then none else some [s]
  | some (.many l) => some l

/-- A turn of an Anthropic-format request. -/
structure AnthropicMessage where
  role : String
  content : MsgContent
deriving DecidableEq

/-- An Anthropic-format request body. -/
structure AnthropicRequest where
  model : Option String
  max_tokens : ℕ
  system : Option String
  messages : List AnthropicMessage
  stream : Bool
  temperature : Option ℚ
  top_p : Option ℚ
  stop_sequences : Option (List String)
deriving DecidableEq

/-- The message loop of `OpenAIAdapter.toAnthropic`: system-role messages are
concatenated (newline-separated) into the system accumulator, all other
messages become turns with role `assistant` or `user`. -/
def toAnthropicLoop : List Message → String → String × List AnthropicMessage
  | [], system => (system, [])
  | msg :: rest, system =>
    if msg.role = "system" then
      toAnthropicLoop rest
        (system ++ (if system = "" then "" else "\n") ++ jsStringOfContent msg.content)
    else
      let r := toAnthropicLoop rest system
      (r.1, ⟨if msg.role = "assistant" then "assistant" else "user", msg.content⟩ :: r.2)

namespace OpenAIAdapter

/-- Conversion of a canonical body to an Anthropic request
(`OpenAIAdapter.toAnthropic`). -/
def toAnthropic (body : Body) : AnthropicRequest :=
  let r := toAnthropicLoop (body.messages.getD []) ""
  { model := body.model
    max_tokens := jsOrNat body.max_tokens 4096
    system := if r.1 = "" then none else some r.1
    messages := r.2
    stream := body.stream
    temperature := body.temperature
    top_p := body.top_p
    stop_sequences := normalizeStop body.stop }

end OpenAIAdapter

/-- A part of a Gemini-request turn; the raw `msg.content` value is stored
in the `text` slot. -/
structure GeminiReqPart where
  text : MsgContent
deriving DecidableEq

/-- A turn of a Gemini-format request. -/
structure GeminiReqContent where
  role : String
  parts : List GeminiReqPart
deriving DecidableEq

/-- The `generationConfig` object of a Gemini request. -/
structure GenerationConfig where
  maxOutputTokens : Option ℕ
  temperature : Option ℚ
  topP : Option ℚ
  stopSequences : Option (List String)
deriving DecidableEq

/-- A Gemini-format request body; `systemInstruction` carries the merged
system text (wrapped as `{parts:[{text}]}` on the wire). -/
structure GeminiRequest where
  contents : List GeminiReqContent
  systemInstruction : Option String
  generationConfig : GenerationConfig
deriving DecidableEq

/-- The message loop of `OpenAIAdapter.toGemini`: system-role messages are
concatenated into the system instruction, all other messages become turns
with role `model` or `user`. -/
def toGeminiLoop : List Message → String → String × List GeminiReqContent
  | [], systemInstruction => (systemInstruction, [])
  | msg :: rest, systemInstruction =>
    if msg.role = "system" then
      toGeminiLoop rest
        (systemInstruction ++ (if systemInstruction = "" then "" else "\n")
          ++ jsStringOfContent msg.content)
    else
      let r := toGeminiLoop rest systemInstruction
      (r.1, ⟨if msg.role = "assistant" then "model" else "user", [⟨msg.content⟩]⟩ :: r.2)

namespace OpenAIAdapter

/-- Conversion of a canonical body to a Gemini request
(`OpenAIAdapter.toGemini`). -/
def toGemini (body : Body) : GeminiRequest :=
  let r := toGeminiLoop (body.messages.getD []) ""
  { contents := r.2
    systemInstruction := if r.1 = "" then none else some r.1
    generationConfig :=
      { maxOutputTokens := body.max_tokens
        temperature := body.temperature
        topP := body.top_p
        stopSequences := normalizeStop body.stop } }

end OpenAIAdapter

/-! ## Inbound response normalization (`adapter.js`) -/

/-- A block of an Anthropic response `content` array. -/
structure AnthropicBlock where
  text : Option String
deriving DecidableEq

/-- An Anthropic usage block. -/
structure AnthropicUsage where
  input_tokens : Option ℕ
  output_tokens : Option ℕ
deriving DecidableEq

/-- A non-stream Anthropic response. -/
structure AnthropicResponse where
  id : Option String
  model : Option String
  content : Option (List AnthropicBlock)
  stop_reason : Option String
  usage : Option AnthropicUsage
deriving DecidableEq

/-- An OpenAI-format usage record. -/
structure OpenAIUsage where
  prompt_tokens : ℕ
  completion_tokens : ℕ
  total_tokens : ℕ
deriving DecidableEq

/-- The message of an OpenAI-format choice. -/
structure OpenAIMessage where
  role : String
  content : String
deriving DecidableEq

/-- A choice of an OpenAI-format response. -/
structure OpenAIChoice where
  index : ℕ
  message : OpenAIMessage
  finish_reason : Option String
deriving DecidableEq

/-- An OpenAI-format chat-completion response. -/
structure OpenAIResponse where
  id : Option String
  object : String
  created : ℕ
  model : Option String
  choices : List OpenAIChoice
  usage : Option OpenAIUsage
deriving DecidableEq

/-- Conversion of an Anthropic response to OpenAI format
(`anthropicToOpenAI` in `adapter.js`); `now` stands for `Date.now()`
in milliseconds. -/
def anthropicToOpenAI (now : ℕ) (response : AnthropicResponse) : OpenAIResponse :=
  let content :=
    match response.content with
    | none => ""
    | some l => String.join (l.map (fun c => c.text.getD ""))
  { id := response.id
    object := "chat.completion"
    created := now / 1000
    model := response.model
    choices := [{ index := 0
                  message := { role := "assistant", content := content }
                  finish_reason :=
                    if response.stop_reason = some "end_turn" then some "stop"
                    else response.stop_reason }]
    usage := some
      { prompt_tokens := (response.usage.bind (·.input_tokens)).getD 0
        completion_tokens := (response.usage.bind (·.output_tokens)).getD 0
        total_tokens :=
          (response.usage.bind (·.input_tokens)).getD 0
            + (response.usage.bind (·.output_tokens)).getD 0 } }

/-- The `content` object of a Gemini response candidate. -/
structure GeminiRespContent where
  parts : Option (List GeminiPart)
deriving DecidableEq

/-- A candidate of a Gemini response. -/
structure GeminiCandidate where
  content : Option GeminiRespContent
  finishReason : Option String
deriving DecidableEq

/-- A Gemini usage-metadata block. -/
structure GeminiUsage where
  promptTokenCount : Option ℕ
  candidatesTokenCount : Option ℕ
  totalTokenCount : Option ℕ
deriving DecidableEq

/-- A non-stream Gemini response. -/
structure GeminiResponse where
  candidates : Option (List GeminiCandidate)
  modelVersion : Option String
  usageMetadata : Option GeminiUsage
deriving DecidableEq

/-- JavaScript `String.prototype.toLowerCase` (character-wise lowering). -/
def jsToLowerCase (s : String) : String := ⟨s.data.map Char.toLower⟩

/-- Conversion of a Gemini response to OpenAI format
(`geminiToOpenAI` in `adapter.js`); `now` stands for `Date.now()`. -/
def geminiToOpenAI (now : ℕ) (response : GeminiResponse) : OpenAIResponse :=
  let candidate := response.candidates.bind List.head?
  let content :=
    match (candidate.bind (·.content)).bind (·.parts) with
    | none => ""
    | some parts => String.join (parts.map (fun p => p.text.getD ""))
  { id := some ("gemini-" ++ toString now)
    object := "chat.completion"
    created := now / 1000
    model := some (jsOrStr response.modelVersion "gemini")
    choices := [{ index := 0
                  message := { role := "assistant", content := content }
                  finish_reason :=
                    if candidate.bind (·.finishReason) = some "STOP" then some "stop"
                    else (candidate.bind (·.finishReason)).map jsToLowerCase }]
    usage := some
      { prompt_tokens := (response.usageMetadata.bind (·.promptTokenCount)).getD 0
        completion_tokens := (response.usageMetadata.bind (·.candidatesTokenCount)).getD 0
        total_tokens := (response.usageMetadata.bind (·.totalTokenCount)).getD 0 } }

/-! ## Stream re-encoder (`createStreamTransformer` in `functions/v1/index.js`)

The transformer has three layers. First the incoming byte chunk is turned
into text by `const text = new TextDecoder().decode(chunk)` — note a
*fresh, non-streaming* decoder per chunk, modelled by `jsTextDecode`
below. Then the line-assembly buffer: the decoded text is appended to a
buffer, the buffer is split on `'\n'`, every complete line is handed to
the per-line translation, and the trailing partial line is retained
(`buffer = lines.pop() || ''`); this layer is modelled generically over
the per-line translation `step`, acting on an abstract state `σ` and
emitting outputs of an abstract type `ω`. The inner layer (the per-line
translation over already-parsed vendor events) follows further below. -/

/-- JavaScript `String.prototype.split('\n')` on a character list: the list
of segments between newlines, in order, empties included; always non-empty. -/
def jsSplitNl : List Char → List (List Char)
  | [] => [[]]
  | c :: rest =>
    match jsSplitNl rest with
    | [] => [[]]
    | l :: ls => if c = '\n' then [] :: l :: ls else (c :: l) :: ls

/-- State of the line-assembly layer: retained partial line plus the
translation's own state. -/
structure FeedState (σ : Type) where
  buffer : List Char
  inner : σ

/-- The post-decode part of the `transform(chunk, controller)` callback,
starting at `buffer += text`: append the decoded text to the buffer, split
on newlines, run `step` on every complete line in order, and retain the
trailing segment as the new buffer. The byte-to-text decode that precedes
it in the callback is `jsTextDecode` below; the whole callback is
`feedByteChunk`. -/
def feedChunk {σ ω : Type} (step : σ → List Char → σ × List ω)
    (s : FeedState σ) (chunk : List Char) : FeedState σ × List ω :=
  let parts := jsSplitNl (s.buffer ++ chunk)
  let complete := parts.dropLast
  let rest := (parts.getLast?).getD []
  let r := complete.foldl
    (fun (acc : σ × List ω) line =>
      let r := step acc.1 line
      (r.1, acc.2 ++ r.2))
    (s.inner, [])
  (⟨rest, r.1⟩, r.2)

/-- Feed a sequence of decoded chunks one at a time, concatenating the
outputs. -/
def feedChunks {σ ω : Type} (step : σ → List Char → σ × List ω)
    (s : FeedState σ) : List (List Char) → FeedState σ × List ω
  | [] => (s, [])
  | chunk :: rest =>
    let r := feedChunk step s chunk
    let r2 := feedChunks step r.1 rest
    (r2.1, r.2 ++ r2.2)

/-! ### The per-chunk `TextDecoder` (WHATWG UTF-8 decode)

`createStreamTransformer` decodes every chunk with
`new TextDecoder().decode(chunk)`: a fresh decoder in non-streaming mode,
so no decoder state survives from one chunk to the next, and any malformed
or incomplete UTF-8 sequence — including a multi-byte character cut in two
by the chunk boundary — is replaced by U+FFFD. The model below is the
WHATWG UTF-8 decoder: a state of pending code-point bits plus the byte
bounds allowed for the next continuation byte. -/

/-- The U+FFFD replacement character emitted by `TextDecoder` for
malformed input. -/
def replacementChar : Char := Char.ofNat 0xFFFD

/-- State of the WHATWG UTF-8 decoder: pending code point, bytes seen and
needed of the current sequence, and the admissible range of the next
continuation byte. -/
structure Utf8State where
  codePoint : ℕ
  bytesSeen : ℕ
  bytesNeeded : ℕ
  lower : ℕ
  upper : ℕ
deriving DecidableEq

/-- Initial decoder state. -/
def utf8Init : Utf8State := ⟨0, 0, 0, 0x80, 0xBF⟩

/-- Decoding one byte in the start state: ASCII is emitted directly; a
lead byte opens a 2-, 3- or 4-byte sequence (with the WHATWG bounds that
exclude overlong encodings and surrogates: `E0` tightens the lower bound
to `A0`, `ED` the upper to `9F`, `F0` the lower to `90`, `F4` the upper to
`8F`); anything else is malformed and becomes U+FFFD. `b % 0x20`,
`b % 0x10`, `b % 0x8` are `b & 0x1F`, `b & 0xF`, `b & 0x7`. -/
def utf8DecodeStart (b : ℕ) : Utf8State × List Char :=
  if b ≤ 0x7F then (utf8Init, [Char.ofNat b])
  else if 0xC2 ≤ b ∧ b ≤ 0xDF then
    ({ utf8Init with bytesNeeded := 1, codePoint := b % 0x20 }, [])
  else if 0xE0 ≤ b ∧ b ≤ 0xEF then
    ({ codePoint := b % 0x10, bytesSeen := 0, bytesNeeded := 2
       lower := if b = 0xE0 then 0xA0 else 0x80
       upper := if b = 0xED then 0x9F else 0xBF }, [])
  else if 0xF0 ≤ b ∧ b ≤ 0xF4 then
    ({ codePoint := b % 0x8, bytesSeen := 0, bytesNeeded := 3
       lower := if b = 0xF0 then 0x90 else 0x80
       upper := if b = 0xF4 then 0x8F else 0xBF }, [])
  else (utf8Init, [replacementChar])

/-- One byte of the WHATWG UTF-8 decoder: in the middle of a sequence a
continuation byte accumulates six bits (`b % 0x40` is `b & 0x3F`) and the
completed code point is emitted; a byte outside the admissible range emits
U+FFFD and is reconsumed in the start state. -/
def utf8Step (st : Utf8State) (b : ℕ) : Utf8State × List Char :=
  if st.bytesNeeded = 0 then utf8DecodeStart b
  else if st.lower ≤ b ∧ b ≤ st.upper then
    let cp := st.codePoint * 0x40 + b % 0x40
    if st.bytesSeen + 1 = st.bytesNeeded then (utf8Init, [Char.ofNat cp])
    else ({ codePoint := cp, bytesSeen := st.bytesSeen + 1
            bytesNeeded := st.bytesNeeded, lower := 0x80, upper := 0xBF }, [])
  else
    let r := utf8DecodeStart b
    (r.1, replacementChar :: r.2)

/-- Run the decoder over a byte list; at end of stream a pending incomplete
sequence becomes one U+FFFD (non-streaming end-of-queue handling). -/
def utf8Run : Utf8State → List ℕ → List Char
  | st, [] => if st.bytesNeeded = 0 then [] else [replacementChar]
  | st, b :: rest =>
    let r := utf8Step st b
    r.2 ++ utf8Run r.1 rest

/-- `new TextDecoder().decode(bytes)`: a fresh, non-streaming WHATWG UTF-8
decode of one whole byte chunk. -/
def jsTextDecode (bytes : List ℕ) : List Char := utf8Run utf8Init bytes

/-- The full `transform(chunk, controller)` callback at the byte level:
decode the chunk with a fresh non-streaming `TextDecoder`, then run the
line-assembly layer on the decoded text. -/
def feedByteChunk {σ ω : Type} (step : σ → List Char → σ × List ω)
    (s : FeedState σ) (chunk : List ℕ) : FeedState σ × List ω :=
  feedChunk step s (jsTextDecode chunk)

/-- Feed a sequence of byte chunks one at a time, each decoded by its own
fresh `TextDecoder`, concatenating the outputs. -/
def feedByteChunks {σ ω : Type} (step : σ → List Char → σ × List ω)
    (s : FeedState σ) : List (List ℕ) → FeedState σ × List ω
  | [] => (s, [])
  | chunk :: rest =>
    let r := feedByteChunk step s chunk
    let r2 := feedByteChunks step r.1 rest
    (r2.1, r.2 ++ r2.2)

/-! ### Split-invariance machinery for the line-assembly layer -/

/-- Decomposition of a character stream into its complete lines and the
trailing partial line. -/
def splitLines : List Char → List (List Char) × List Char
  | [] => ([], [])
  | c :: rest =>
    if c = '\n' then ([] :: (splitLines rest).1, (splitLines rest).2)
    else
      match splitLines rest with
      | ([], r2) => ([], c :: r2)
      | (hd :: t, r2) => ((c :: hd) :: t, r2)

/-- The JavaScript split is the complete lines followed by the trailing
partial line. -/
lemma jsSplitNl_eq_splitLines (l : List Char) :
    jsSplitNl l = (splitLines l).1 ++ [(splitLines l).2] := by
  induction l with
  | nil => rfl
  | cons c rest ih =>
    rcases hA : splitLines rest with ⟨l1, r1⟩
    rw [hA] at ih
    by_cases hc : c = '\n'
    · subst hc
      cases l1 with
      | nil => simp [jsSplitNl, splitLines, ih, hA]
      | cons hd t => simp [jsSplitNl, splitLines, ih, hA]
    · cases l1 with
      | nil => simp [jsSplitNl, splitLines, ih, hA, hc]
      | cons hd t => simp [jsSplitNl, splitLines, ih, hA, hc]

/-- Splitting a concatenation: the lines of `a` come first, and the trailing
partial line of `a` is prepended to `b` before splitting the rest. -/
lemma splitLines_append (a b : List Char) :
    splitLines (a ++ b) =
      ((splitLines a).1 ++ (splitLines ((splitLines a).2 ++ b)).1,
        (splitLines ((splitLines a).2 ++ b)).2) := by
  induction a with
  | nil => simp [splitLines]
  | cons c a' ih =>
    rcases hA : splitLines a' with ⟨l1, r1⟩
    rw [hA] at ih
    by_cases hc : c = '\n'
    · subst hc
      simp [List.cons_append, splitLines, ih, hA]
    · cases l1 with
      | nil =>
        rcases hQ : splitLines (r1 ++ b) with ⟨ql, qr⟩
        rw [hQ] at ih
        cases ql with
        | nil =>
          simp [List.cons_append, splitLines, hc, ih, hA, hQ, List.append_eq]
        | cons qh qt =>
          simp [List.cons_append, splitLines, hc, ih, hA, hQ, List.append_eq]
      | cons hd t =>
        rcases hQ : splitLines (r1 ++ b) with ⟨ql, qr⟩
        rw [hQ] at ih
        simp [List.cons_append, splitLines, hc, ih, hA, hQ, List.append_eq]

/-- The trailing partial line contains no newline. -/
lemma splitLines_rem_no_nl (l : List Char) : '\n' ∉ (splitLines l).2 := by
  induction l with
  | nil => simp [splitLines]
  | cons c rest ih =>
    by_cases hc : c = '\n'
    · subst hc; simpa [splitLines] using ih
    · rcases hA : splitLines rest with ⟨l1, r1⟩
      rw [hA] at ih
      cases l1 with
      | nil =>
        simp only [splitLines, if_neg hc, hA]
        intro hmem
        rcases List.mem_cons.mp hmem with h1 | h2
        · exact hc h1.symm
        · exact ih h2
      | cons hd t =>
        simp only [splitLines, if_neg hc, hA]
        exact ih

/-- A newline-free stream splits into no complete line and itself. -/
lemma splitLines_of_no_nl (l : List Char) (h : '\n' ∉ l) : splitLines l = ([], l) := by
  induction l with
  | nil => rfl
  | cons c rest ih =>
    have hc : c ≠ '\n' := fun hcc => h (hcc ▸ List.mem_cons_self c rest)
    have hrest : '\n' ∉ rest := fun hr => h (List.mem_cons_of_mem c hr)
    simp [splitLines, hc, ih hrest]

/-- The output-accumulating fold of the per-line translation over a list of
complete lines (the `for (const line of lines)` loop body). -/
def processLinesFold {σ ω : Type} (step : σ → List Char → σ × List ω)
    (acc : σ × List ω) (lines : List (List Char)) : σ × List ω :=
  lines.foldl
    (fun acc line =>
      let r := step acc.1 line
      (r.1, acc.2 ++ r.2))
    acc

lemma processLinesFold_out {σ ω : Type} (step : σ → List Char → σ × List ω)
    (st : σ) (o : List ω) (lines : List (List Char)) :
    processLinesFold step (st, o) lines =
      ((processLinesFold step (st, []) lines).1,
        o ++ (processLinesFold step (st, []) lines).2) := by
  induction lines generalizing st o with
  | nil => simp [processLinesFold]
  | cons line rest ih =>
    simp only [processLinesFold, List.foldl_cons]
    rw [show ∀ p : σ × List ω, List.foldl
        (fun acc line => ((step acc.1 line).1, acc.2 ++ (step acc.1 line).2)) p rest
        = processLinesFold step p rest from fun _ => rfl,
      show ∀ p : σ × List ω, List.foldl
        (fun acc line => ((step acc.1 line).1, acc.2 ++ (step acc.1 line).2)) p rest
        = processLinesFold step p rest from fun _ => rfl]
    rw [ih (step st line).1 (o ++ (step st line).2),
      ih (step st line).1 ([] ++ (step st line).2)]
    simp

lemma processLinesFold_append {σ ω : Type} (step : σ → List Char → σ × List ω)
    (st : σ) (l1 l2 : List (List Char)) :
    processLinesFold step (st, []) (l1 ++ l2) =
      ((processLinesFold step ((processLinesFold step (st, []) l1).1, []) l2).1,
        (processLinesFold step (st, []) l1).2
          ++ (processLinesFold step ((processLinesFold step (st, []) l1).1, []) l2).2) := by
  rcases h1 : processLinesFold step (st, []) l1 with ⟨st1, o1⟩
  have : processLinesFold step (st, []) (l1 ++ l2)
      = processLinesFold step (st1, o1) l2 := by
    simp only [processLinesFold, List.foldl_append]
    rw [show List.foldl
        (fun acc line => ((step acc.1 line).1, acc.2 ++ (step acc.1 line).2)) (st, []) l1
        = processLinesFold step (st, []) l1 from rfl, h1]
  rw [this, processLinesFold_out]

/-- `feedChunk` re-expressed through `splitLines`. -/
lemma feedChunk_eq {σ ω : Type} (step : σ → List Char → σ × List ω)
    (s : FeedState σ) (chunk : List Char) :
    feedChunk step s chunk =
      (⟨(splitLines (s.buffer ++ chunk)).2,
          (processLinesFold step (s.inner, []) (splitLines (s.buffer ++ chunk)).1).1⟩,
        (processLinesFold step (s.inner, []) (splitLines (s.buffer ++ chunk)).1).2) := by
  unfold feedChunk
  rw [jsSplitNl_eq_splitLines]
  simp [List.dropLast_concat, List.getLast?_concat, processLinesFold]

/-- Feeding a concatenation of two chunks is feeding them in sequence. -/
lemma feedChunk_append {σ ω : Type} (step : σ → List Char → σ × List ω)
    (s : FeedState σ) (a b : List Char) :
    feedChunk step s (a ++ b) =
      ((feedChunk step (feedChunk step s a).1 b).1,
        (feedChunk step s a).2 ++ (feedChunk step (feedChunk step s a).1 b).2) := by
  rw [feedChunk_eq, feedChunk_eq, feedChunk_eq]
  simp only
  rw [show s.buffer ++ (a ++ b) = (s.buffer ++ a) ++ b by simp [List.append_assoc]]
  rw [splitLines_append (s.buffer ++ a) b]
  simp only
  rw [processLinesFold_append]

/-- Feeding chunks one at a time from a newline-free buffer equals feeding
their concatenation at once. -/
lemma feedChunks_join {σ ω : Type} (step : σ → List Char → σ × List ω)
    (s : FeedState σ) (hbuf : '\n' ∉ s.buffer) (chunks : List (List Char)) :
    feedChunks step s chunks = feedChunk step s chunks.flatten := by
  induction chunks generalizing s with
  | nil =>
    simp only [feedChunks, List.flatten_nil]
    rw [feedChunk_eq]
    simp [splitLines_of_no_nl s.buffer hbuf, processLinesFold]
  | cons ch rest ih =>
    simp only [feedChunks, List.flatten_cons]
    rw [feedChunk_append]
    have hbuf2 : '\n' ∉ (feedChunk step s ch).1.buffer := by
      rw [feedChunk_eq]
      exact splitLines_rem_no_nl _
    rw [ih _ hbuf2]

/-! ### Per-event stream translation

The per-line translation of `createStreamTransformer`, modelled over
already-parsed vendor events (the JSON shapes the code reads after
`JSON.parse(data)`), per channel provider type. -/

/-- The `message` object read from an Anthropic stream event
(`parsed.message`). -/
structure AnthropicStreamMsg where
  id : String
  usage_input : Option ℕ
deriving DecidableEq

/-- An Anthropic stream event, as read by the transformer. -/
inductive AnthropicEvent where
  | contentBlockDelta (message : Option AnthropicStreamMsg) (deltaText : Option String)
  | messageDelta (stopReason : Option String) (usage : Option AnthropicUsage)
  | messageStart (message : Option AnthropicStreamMsg)
  | otherType
deriving DecidableEq

/-- A Gemini stream event, as read by the transformer: the first candidate's
first part's text, the first candidate's finish reason, and the usage
metadata. -/
structure GeminiEvent where
  candText : Option String
  finishReason : Option String
  usageMetadata : Option GeminiUsage
deriving DecidableEq

/-- An OpenAI-format stream chunk, as read (and passed through) by the
transformer. -/
structure OpenAIChunkEv where
  model : Option String
  usage : Option OpenAIUsage
deriving DecidableEq

/-- A parsed `data:` line of a vendor stream: the `[DONE]` terminal marker
or a vendor event. -/
inductive StreamLine where
  | done
  | anthropic (e : AnthropicEvent)
  | gemini (e : GeminiEvent)
  | openai (e : OpenAIChunkEv)
deriving DecidableEq

/-- A canonical stream chunk as built by the transformer. -/
structure CanonicalChunk where
  id : Option String
  object : String
  created : Option ℕ
  model : Option String
  role : Option String
  content : Option String
  finish_reason : Option String
deriving DecidableEq

/-- One output record of the transformed stream: a canonical chunk built by
the Anthropic/Gemini branches, a passed-through OpenAI chunk, or the
re-emitted `data: [DONE]` marker. -/
inductive OutChunk where
  | canonical (c : CanonicalChunk)
  | passthrough (e : OpenAIChunkEv)
  | doneMark
deriving DecidableEq

/-- The token counters accumulated by the transformer
(`let inputTokens = 0; let outputTokens = 0`). -/
structure StreamUsage where
  inputTokens : ℕ
  outputTokens : ℕ
deriving DecidableEq

/-- Translation of one parsed stream line under a channel's provider type
(`channel.provider`), with the configured model identifier
(`model.model_id`) and `now` for `Date.now()`: returns the updated token
counters and the chunks enqueued for this line. -/
def streamTransformLine (provider modelId : String) (now : ℕ)
    (st : StreamUsage) : StreamLine → StreamUsage × List OutChunk
  | .done => (st, [.doneMark])
  | .anthropic e =>
    if provider = ProviderType.ANTHROPIC then
      match e with
      | .contentBlockDelta message deltaText =>
        if jsTruthyStr deltaText then
          let t := deltaText.getD ""
          ({ st with outputTokens := st.outputTokens + jsCeil ((t.length : ℚ) / 4) },
            [.canonical
              { id := some (jsOrStr (message.map (·.id)) ("chatcmpl-" ++ toString now))
                object := "chat.completion.chunk"
                created := some (now / 1000)
                model := some modelId
                role := none
                content := some t
                finish_reason := none }])
        else (st, [])
      | .messageDelta stopReason usage =>
        let st2 :=
          match usage with
          | none => st
          | some u =>
            { inputTokens := jsOrNat u.input_tokens st.inputTokens
              outputTokens := jsOrNat u.output_tokens st.outputTokens }
        (st2, [.canonical
          { id := none
            object := "chat.completion.chunk"
            created := none
            model := none
            role := none
            content := none
            finish_reason :=
              if stopReason = some "end_turn" then some "stop" else none }])
      | .messageStart message =>
        match message with
        | none => (st, [])
        | some m =>
          ({ st with inputTokens := (m.usage_input).getD 0 },
            [.canonical
              { id := some m.id
                object := "chat.completion.chunk"
                created := some (now / 1000)
                model := some modelId
                role := some "assistant"
                content := none
                finish_reason := none }])
      | .otherType => (st, [])
    else (st, [])
  | .gemini e =>
    if provider = ProviderType.GEMINI then
      let withChunk :=
        if jsTruthyStr e.candText then
          let t := e.candText.getD ""
          ({ st with outputTokens := st.outputTokens + jsCeil ((t.length : ℚ) / 4) },
            [.canonical
              { id := some ("chatcmpl-" ++ toString now)
                object := "chat.completion.chunk"
                created := some (now / 1000)
                model := some modelId
                role := none
                content := some t
                finish_reason :=
                  if e.finishReason = some "STOP" then some "stop" else none }])
        else (st, [])
      match e.usageMetadata with
      | none => withChunk
      | some u =>
        ({ inputTokens := jsOrNat u.promptTokenCount withChunk.1.inputTokens
           outputTokens := jsOrNat u.candidatesTokenCount withChunk.1.outputTokens },
          withChunk.2)
    else (st, [])
  | .openai e =>
    if provider = ProviderType.ANTHROPIC ∨ provider = ProviderType.GEMINI then (st, [])
    else
      let st2 :=
        match e.usage with
        | none => st
        | some u =>
          { inputTokens := jsOrNat (some u.prompt_tokens) st.inputTokens
            outputTokens := jsOrNat (some u.completion_tokens) st.outputTokens }
      (st2, [.passthrough e])

/-- Run the transformer over a whole sequence of parsed stream lines,
accumulating the token counters and concatenating the emitted chunks. -/
def runStream (provider modelId : String) (now : ℕ) :
    StreamUsage → List StreamLine → StreamUsage × List OutChunk
  | st, [] => (st, [])
  | st, line :: rest =>
    let r := streamTransformLine provider modelId now st line
    let r2 := runStream provider modelId now r.1 rest
    (r2.1, r.2 ++ r2.2)

/-! ## Billing, configuration and the orchestrator (`functions/v1/index.js`) -/

/-- An authenticated user record. -/
structure User where
  uid : String
  balance : ℚ
  is_blocked : Bool
deriving DecidableEq

/-- A model configuration record (`ModelConfig`). -/
structure ModelConfig where
  model_id : String
  channel_id : String
  upstream_model : Option String
  input_price : Option ℚ
  output_price : Option ℚ
  enabled : Bool
deriving DecidableEq

/-- A channel configuration record (`ChannelConfig`). -/
structure ChannelConfig where
  provider : String
  base_url : String
  enabled : Bool
deriving DecidableEq

/-- The configuration store boundary: keyed lookups for models and channels. -/
structure KVStore where
  getModel : String → Option ModelConfig
  getChannel : String → Option ChannelConfig

/-- Model/channel resolution (`getModelConfig` in `functions/v1/index.js`):
`none` when the model is missing or disabled, or its channel is missing or
disabled. -/
def getModelConfig (kv : KVStore) (modelId : String) :
    Option (ModelConfig × ChannelConfig) :=
  match kv.getModel modelId with
  | none => none
  | some model =>
    if ¬model.enabled then none
    else
      match kv.getChannel model.channel_id with
      | none => none
      | some channel =>
        if ¬channel.enabled then none
        else some (model, channel)

/-- Cost of a request (`calculateCost`):
`inputTokens/1000 * (input_price || 0) + outputTokens/1000 * (output_price || 0)`. -/
def calculateCost (model : ModelConfig) (inputTokens outputTokens : ℚ) : ℚ :=
  let inputCost := (inputTokens / 1000) * (model.input_price.getD 0)
  let outputCost := (outputTokens / 1000) * (model.output_price.getD 0)
  inputCost + outputCost

/-- One settlement: the balance debit (`kv.updateBalance(uid, -cost)`) paired
with the usage-ledger record
(`kv.recordUsage(uid, modelId, inputTokens, outputTokens, cost)`). -/
structure Settlement where
  uid : String
  modelId : String
  inputTokens : ℕ
  outputTokens : ℕ
  cost : ℚ
deriving DecidableEq

/-- The response returned to the client. -/
inductive HandlerResponse where
  | errorResp (status : ℕ) (message : String)
  | streamResp (chunks : List OutChunk)
  | jsonResp (body : OpenAIResponse)
  | thrown (message : String)
deriving DecidableEq

/-- The environment a request is handled in: the authentication result, the
configuration store, whether the platform provides `waitUntil`, the current
time, and the upstream vendor's reply (per shape, selected by the channel's
provider type). -/
structure HandlerEnv where
  authUser : Option User
  kv : KVStore
  hasWaitUntil : Bool
  now : ℕ
  upstreamStream : List StreamLine
  upstreamAnthropic : AnthropicResponse
  upstreamGemini : GeminiResponse
  upstreamOpenAI : OpenAIResponse

/-- The observable outcome of handling one request: the client response,
whether a vendor dispatch happened, and the settlements applied to the
balance store and usage ledger. -/
structure HandlerOutcome where
  response : HandlerResponse
  dispatched : Bool
  settlements : List Settlement
deriving DecidableEq

/-- The chat-completions orchestrator (`handleChatCompletions`): authenticate,
parse and validate, resolve model and channel, admission-check the balance
against the pre-flight estimate with a 100-output-token placeholder,
dispatch, and settle. -/
def handleChatCompletions (env : HandlerEnv) (body : Body) : HandlerOutcome :=
  match env.authUser with
  | none => ⟨.errorResp 401 "API Key 无效或已禁用", false, []⟩
  | some user =>
    if user.is_blocked then ⟨.errorResp 403 "账户已被封禁", false, []⟩
    else
      match body.model with
      | none => ⟨.errorResp 400 "缺少 model 参数", false, []⟩
      | some modelId =>
        let _requestFormat := detectRequestFormat body
        match getModelConfig env.kv modelId with
        | none => ⟨.errorResp 404 ("模型 " ++ modelId ++ " 不存在或未启用"), false, []⟩
        | some (model, channel) =>
          let estimatedInputTokens := estimateInputTokens body
          let estimatedCost := calculateCost model (estimatedInputTokens : ℚ) 100
          if user.balance < estimatedCost then
            ⟨.errorResp 402 "余额不足，请先充值", false, []⟩
          else if channel.provider ≠ ProviderType.OPENAI
              ∧ channel.provider ≠ ProviderType.ANTHROPIC
              ∧ channel.provider ≠ ProviderType.GEMINI then
            -- `createProvider` throws outside the try/catch block
            ⟨.thrown ("不支持的提供商类型: " ++ channel.provider), false, []⟩
          else
            let _upstreamModel := jsOrStr model.upstream_model modelId
            let isStream := body.stream
            if isStream then
              let chunks :=
                (runStream channel.provider model.model_id env.now
                  ⟨0, 0⟩ env.upstreamStream).2
              let estimatedOutputTokens : ℕ := 500
              let cost := calculateCost model (estimatedInputTokens : ℚ)
                (estimatedOutputTokens : ℚ)
              let settlements :=
                if env.hasWaitUntil then
                  [⟨user.uid, modelId, estimatedInputTokens, estimatedOutputTokens, cost⟩]
                else []
              ⟨.streamResp chunks, true, settlements⟩
            else
              let result0 :=
                if channel.provider = ProviderType.ANTHROPIC then
                  anthropicToOpenAI env.now env.upstreamAnthropic
                else if channel.provider = ProviderType.GEMINI then
                  geminiToOpenAI env.now env.upstreamGemini
                else env.upstreamOpenAI
              let result := { result0 with model := some modelId }
              let inputTokens : ℕ :=
                jsOrNat (result.usage.map (·.prompt_tokens)) estimatedInputTokens
              let outputTokens : ℕ := (result.usage.map (·.completion_tokens)).getD 0
              let cost := calculateCost model (inputTokens : ℚ) (outputTokens : ℚ)
              ⟨.jsonResp result, true,
                [⟨user.uid, modelId, inputTokens, outputTokens, cost⟩]⟩

/-! ## Theorems about the claims -/

/-- C7: for every model configuration and all non-negative token counts,
`calculateCost` equals `inputTokens/1000 * inputPrice +
outputTokens/1000 * outputPrice`; it is zero at `(0, 0)`, additive and
homogeneous in each token argument separately, never negative for
non-negative prices and token counts, and on a model priced `5`/`15` per
1000 tokens the usage `{input: 5, output: 3}` costs exactly `0.07`. -/
theorem calculateCost_spec (model : ModelConfig) (i o a s : ℚ)
    (hpi : 0 ≤ model.input_price.getD 0) (hpo : 0 ≤ model.output_price.getD 0)
    (hi : 0 ≤ i) (ho : 0 ≤ o) :
    calculateCost model i o
        = i / 1000 * model.input_price.getD 0 + o / 1000 * model.output_price.getD 0
      ∧ calculateCost model 0 0 = 0
      ∧ calculateCost model (i + a) o = calculateCost model i o + calculateCost model a 0
      ∧ calculateCost model i (o + a) = calculateCost model i o + calculateCost model 0 a
      ∧ calculateCost model (s * i) o = s * calculateCost model i o
          + (1 - s) * calculateCost model 0 o
      ∧ calculateCost model i (s * o) = s * calculateCost model i o
          + (1 - s) * calculateCost model i 0
      ∧ 0 ≤ calculateCost model i o
      ∧ calculateCost
          { model_id := "gpt-4o", channel_id := "ch", upstream_model := none
            input_price := some 5, output_price := some 15, enabled := true }
          5 3 = 0.07 := by
  refine ⟨rfl, ?_, ?_, ?_, ?_, ?_, ?_, ?_⟩
  · simp [calculateCost]
  · simp only [calculateCost]; ring
  · simp only [calculateCost]; ring
  · simp only [calculateCost]; ring
  · simp only [calculateCost]; ring
  · have h1 : 0 ≤ i / 1000 * model.input_price.getD 0 :=
      mul_nonneg (by positivity) hpi
    have h2 : 0 ≤ o / 1000 * model.output_price.getD 0 :=
      mul_nonneg (by positivity) hpo
    simpa [calculateCost] using add_nonneg h1 h2
  · norm_num [calculateCost]

/-- Witness for `calculateCost_spec` at a concrete model and concrete
token counts. -/
theorem calculateCost_spec_witness :
    (0 : ℚ) ≤ (Option.getD (some (5 : ℚ)) 0)
      ∧ (0 : ℚ) ≤ (Option.getD (some (15 : ℚ)) 0)
      ∧ (0 : ℚ) ≤ 5 ∧ (0 : ℚ) ≤ 3
      ∧ calculateCost
          { model_id := "m", channel_id := "c", upstream_model := none
            input_price := some 5, output_price := some 15, enabled := true }
          5 3 = 5 / 1000 * (Option.getD (some (5 : ℚ)) 0)
            + 3 / 1000 * (Option.getD (some (15 : ℚ)) 0) := by
  refine ⟨by norm_num, by norm_num, by norm_num, by norm_num, ?_⟩
  exact (calculateCost_spec
    { model_id := "m", channel_id := "c", upstream_model := none
      input_price := some 5, output_price := some 15, enabled := true }
    5 3 1 1 (by norm_num) (by norm_num) (by norm_num) (by norm_num)).1

/-- C5: a request for a model that is unknown or disabled, or whose channel
is unknown or disabled, yields the model-unavailable error (HTTP 404) with
no vendor dispatch and no settlement: balance and usage ledger are
untouched. -/
theorem model_unavailable_no_effect (env : HandlerEnv) (body : Body)
    (user : User) (modelId : String)
    (hauth : env.authUser = some user) (hblk : user.is_blocked = false)
    (hmid : body.model = some modelId)
    (hcfg : env.kv.getModel modelId = none
      ∨ (∃ m, env.kv.getModel modelId = some m ∧ m.enabled = false)
      ∨ (∃ m, env.kv.getModel modelId = some m ∧ env.kv.getChannel m.channel_id = none)
      ∨ (∃ m c, env.kv.getModel modelId = some m
          ∧ env.kv.getChannel m.channel_id = some c ∧ c.enabled = false)) :
    handleChatCompletions env body =
      ⟨.errorResp 404 ("模型 " ++ modelId ++ " 不存在或未启用"), false, []⟩ := by
  have hnone : getModelConfig env.kv modelId = none := by
    rcases hcfg with h | ⟨m, hm, he⟩ | ⟨m, hm, hc⟩ | ⟨m, c, hm, hc, hce⟩
    · simp [getModelConfig, h]
    · simp [getModelConfig, hm, he]
    · simp [getModelConfig, hm, hc]
    · simp [getModelConfig, hm, hc, hce]
  simp [handleChatCompletions, hauth, hblk, hmid, hnone]

/-- Witness for `model_unavailable_no_effect`: a request for a model absent
from the store. -/
theorem model_unavailable_no_effect_witness :
    (HandlerEnv.authUser
        ⟨some ⟨"u1", 10, false⟩, ⟨fun _ => none, fun _ => none⟩, true, 0, [],
          ⟨none, none, none, none, none⟩, ⟨none, none, none⟩,
          ⟨none, "", 0, none, [], none⟩⟩ = some ⟨"u1", 10, false⟩)
    ∧ handleChatCompletions
        ⟨some ⟨"u1", 10, false⟩, ⟨fun _ => none, fun _ => none⟩, true, 0, [],
          ⟨none, none, none, none, none⟩, ⟨none, none, none⟩,
          ⟨none, "", 0, none, [], none⟩⟩
        ⟨some "ghost-model", none, none, false, none, none, none, none, false⟩ =
      ⟨.errorResp 404 ("模型 " ++ "ghost-model" ++ " 不存在或未启用"), false, []⟩ :=
  ⟨rfl, model_unavailable_no_effect _ _ ⟨"u1", 10, false⟩ "ghost-model"
    rfl rfl rfl (Or.inl rfl)⟩

/-- C4: for an authenticated, resolvable request the admission check rejects
with the insufficient-balance error (HTTP 402) exactly when the balance is
strictly below `calculateCost(model, estimatedInputTokens, 100)`; on
rejection nothing is dispatched and nothing is settled, and a balance
exactly equal to the estimate is admitted. -/
theorem admission_check_iff (env : HandlerEnv) (body : Body)
    (user : User) (modelId : String) (model : ModelConfig) (channel : ChannelConfig)
    (hauth : env.authUser = some user) (hblk : user.is_blocked = false)
    (hmid : body.model = some modelId)
    (hcfg : getModelConfig env.kv modelId = some (model, channel)) :
    ((handleChatCompletions env body).response = .errorResp 402 "余额不足，请先充值"
        ↔ user.balance < calculateCost model (estimateInputTokens body : ℚ) 100)
      ∧ (user.balance < calculateCost model (estimateInputTokens body : ℚ) 100 →
          handleChatCompletions env body = ⟨.errorResp 402 "余额不足，请先充值", false, []⟩) := by
  by_cases hb : user.balance < calculateCost model (estimateInputTokens body : ℚ) 100
  · simp [handleChatCompletions, hauth, hblk, hmid, hcfg, hb]
  · simp only [handleChatCompletions, hauth, hblk, hmid, hcfg, if_neg hb]
    refine ⟨⟨?_, fun h => absurd h hb⟩, fun h => absurd h hb⟩
    intro h
    exfalso
    revert h
    simp only [hblk, Bool.false_eq_true, if_false]
    split
    · simp
    · split <;> simp

/-- Witness for `admission_check_iff`: a user whose balance exactly equals
the pre-flight estimated cost. -/
theorem admission_check_iff_witness :
    (HandlerEnv.authUser
        ⟨some ⟨"u1", 0, false⟩,
          ⟨fun mid => if mid = "m" then
              some ⟨"m", "ch", none, none, none, true⟩ else none,
            fun cid => if cid = "ch" then some ⟨"openai", "", true⟩ else none⟩,
          true, 0, [], ⟨none, none, none, none, none⟩, ⟨none, none, none⟩,
          ⟨none, "", 0, none, [], none⟩⟩ = some ⟨"u1", 0, false⟩)
    ∧ (getModelConfig
        ⟨fun mid => if mid = "m" then
            some ⟨"m", "ch", none, none, none, true⟩ else none,
          fun cid => if cid = "ch" then some ⟨"openai", "", true⟩ else none⟩ "m"
        = some (⟨"m", "ch", none, none, none, true⟩, ⟨"openai", "", true⟩))
    ∧ (((handleChatCompletions
          ⟨some ⟨"u1", 0, false⟩,
            ⟨fun mid => if mid = "m" then
                some ⟨"m", "ch", none, none, none, true⟩ else none,
              fun cid => if cid = "ch" then some ⟨"openai", "", true⟩ else none⟩,
            true, 0, [], ⟨none, none, none, none, none⟩, ⟨none, none, none⟩,
            ⟨none, "", 0, none, [], none⟩⟩
          ⟨some "m", none, none, false, none, none, none, none, false⟩).response
          = .errorResp 402 "余额不足，请先充值"
        ↔ User.balance ⟨"u1", 0, false⟩
            < calculateCost ⟨"m", "ch", none, none, none, true⟩
              (estimateInputTokens
                ⟨some "m", none, none, false, none, none, none, none, false⟩ : ℚ) 100)
        ∧ (User.balance ⟨"u1", 0, false⟩
              < calculateCost ⟨"m", "ch", none, none, none, true⟩
                (estimateInputTokens
                  ⟨some "m", none, none, false, none, none, none, none, false⟩ : ℚ) 100 →
            handleChatCompletions
              ⟨some ⟨"u1", 0, false⟩,
                ⟨fun mid => if mid = "m" then
                    some ⟨"m", "ch", none, none, none, true⟩ else none,
                  fun cid => if cid = "ch" then some ⟨"openai", "", true⟩ else none⟩,
                true, 0, [], ⟨none, none, none, none, none⟩, ⟨none, none, none⟩,
                ⟨none, "", 0, none, [], none⟩⟩
              ⟨some "m", none, none, false, none, none, none, none, false⟩
              = ⟨.errorResp 402 "余额不足，请先充值", false, []⟩)) :=
  ⟨rfl, rfl,
    admission_check_iff _ _ ⟨"u1", 0, false⟩ "m"
      ⟨"m", "ch", none, none, none, true⟩ ⟨"openai", "", true⟩ rfl rfl rfl rfl⟩

/-- Feeding byte chunks is feeding their per-chunk decodes to the
line-assembly layer. -/
lemma feedByteChunks_eq_feedChunks {σ ω : Type}
    (step : σ → List Char → σ × List ω) (s : FeedState σ)
    (chunks : List (List ℕ)) :
    feedByteChunks step s chunks = feedChunks step s (chunks.map jsTextDecode) := by
  induction chunks generalizing s with
  | nil => rfl
  | cons c rest ih =>
    simp only [feedByteChunks, feedChunks, List.map_cons, feedByteChunk, ih]

/-- C3 (counterexample): the byte stream `data: 你\n` (with `你` encoded as
`E4 BD A0`) split *inside* the three-byte character — chunks
`64 61 74 61 3A 20 E4` and `BD A0 0A` — re-encodes differently from the
single-chunk feed: each chunk's fresh non-streaming `TextDecoder` turns
the severed halves into U+FFFD, so the chunked feed hands the per-line
translation the line `data: ���` while the single-chunk feed hands it
`data: 你`; the emitted sequences differ, refuting invariance under
arbitrary byte splits. -/
theorem stream_reencoder_byte_split_cx :
    (feedByteChunks (fun (_ : Unit) line => ((), [line])) ⟨[], ()⟩
        [[0x64, 0x61, 0x74, 0x61, 0x3A, 0x20, 0xE4], [0xBD, 0xA0, 0x0A]]).2
        = [['d', 'a', 't', 'a', ':', ' ', '�', '�', '�']]
      ∧ (feedByteChunk (fun (_ : Unit) line => ((), [line])) ⟨[], ()⟩
          ([0x64, 0x61, 0x74, 0x61, 0x3A, 0x20, 0xE4] ++ [0xBD, 0xA0, 0x0A])).2
          = [['d', 'a', 't', 'a', ':', ' ', '你']]
      ∧ (['d', 'a', 't', 'a', ':', ' ', '�', '�', '�'] : List Char)
          ≠ ['d', 'a', 't', 'a', ':', ' ', '你'] := by
  refine ⟨by decide, by decide, by decide⟩

/-- C3 (amended): feeding the re-encoder a vendor byte stream split at
arbitrary UTF-8 **character** boundaries — any split where per-chunk
decoding agrees with whole-stream decoding, mid-line splits included —
produces exactly the same translation state and the same output sequence
as feeding the whole stream as one single chunk, for every per-line
translation `step`; splits inside a multi-byte character are excluded,
since the per-chunk fresh non-streaming `TextDecoder` mangles them to
U+FFFD. -/
theorem stream_reencoder_char_boundary_invariant {σ ω : Type}
    (step : σ → List Char → σ × List ω) (init : σ) (chunks : List (List ℕ))
    (h : jsTextDecode chunks.flatten = (chunks.map jsTextDecode).flatten) :
    feedByteChunks step ⟨[], init⟩ chunks
      = feedByteChunk step ⟨[], init⟩ chunks.flatten := by
  rw [feedByteChunks_eq_feedChunks,
    feedChunks_join step ⟨[], init⟩ (by simp) (chunks.map jsTextDecode),
    feedByteChunk, ← h]

/-- Witness for `stream_reencoder_char_boundary_invariant`: the stream
`data: a\n` split at a character boundary, with the line-collecting
translation. -/
theorem stream_reencoder_char_boundary_witness :
    (jsTextDecode ([[0x64, 0x61], [0x74, 0x61, 0x3A, 0x20, 0x61, 0x0A]] :
          List (List ℕ)).flatten
        = (([[0x64, 0x61], [0x74, 0x61, 0x3A, 0x20, 0x61, 0x0A]] :
            List (List ℕ)).map jsTextDecode).flatten)
      ∧ feedByteChunks (fun (_ : Unit) line => ((), [line])) ⟨[], ()⟩
          [[0x64, 0x61], [0x74, 0x61, 0x3A, 0x20, 0x61, 0x0A]]
          = feedByteChunk (fun (_ : Unit) line => ((), [line])) ⟨[], ()⟩
            ([[0x64, 0x61], [0x74, 0x61, 0x3A, 0x20, 0x61, 0x0A]] :
              List (List ℕ)).flatten :=
  ⟨by decide,
    stream_reencoder_char_boundary_invariant (fun (_ : Unit) line => ((), [line])) ()
      [[0x64, 0x61], [0x74, 0x61, 0x3A, 0x20, 0x61, 0x0A]] (by decide)⟩

/-- Role soundness of the turns built by `toAnthropicLoop`. -/
lemma toAnthropicLoop_roles (l : List Message) (sys : String) :
    ∀ m ∈ (toAnthropicLoop l sys).2, m.role = "user" ∨ m.role = "assistant" := by
  induction l generalizing sys with
  | nil => simp [toAnthropicLoop]
  | cons msg rest ih =>
    by_cases hs : msg.role = "system"
    · simpa [toAnthropicLoop, hs] using ih _
    · intro m hm
      simp only [toAnthropicLoop, if_neg hs] at hm
      rcases List.mem_cons.mp hm with h | h
      · subst h
        by_cases ha : msg.role = "assistant" <;> simp [ha]
      · exact ih sys m h

/-- Role soundness of the turns built by `toGeminiLoop`. -/
lemma toGeminiLoop_roles (l : List Message) (sys : String) :
    ∀ c ∈ (toGeminiLoop l sys).2, c.role = "user" ∨ c.role = "model" := by
  induction l generalizing sys with
  | nil => simp [toGeminiLoop]
  | cons msg rest ih =>
    by_cases hs : msg.role = "system"
    · simpa [toGeminiLoop, hs] using ih _
    · intro c hc
      simp only [toGeminiLoop, if_neg hs] at hc
      rcases List.mem_cons.mp hc with h | h
      · subst h
        by_cases ha : msg.role = "assistant" <;> simp [ha]
      · exact ih sys c h

/-- C10: every non-system message is coerced into the vendor turn list with
role `user` unless it is an assistant message, so the Anthropic payload's
turn roles are always drawn from exactly `{user, assistant}` and the Gemini
payload's from `{user, model}`; a message with an unrecognized role (e.g.
`tool`) heads the turn list as a `user` turn. -/
theorem vendor_turn_roles (body : Body) (msg : Message) (rest : List Message)
    (sys : String) (hs : msg.role ≠ "system") (ha : msg.role ≠ "assistant") :
    (∀ m ∈ (OpenAIAdapter.toAnthropic body).messages,
        m.role = "user" ∨ m.role = "assistant")
      ∧ (∀ c ∈ (OpenAIAdapter.toGemini body).contents,
          c.role = "user" ∨ c.role = "model")
      ∧ (toAnthropicLoop (msg :: rest) sys).2.head? = some ⟨"user", msg.content⟩
      ∧ (toGeminiLoop (msg :: rest) sys).2.head? = some ⟨"user", [⟨msg.content⟩]⟩ := by
  refine ⟨toAnthropicLoop_roles _ _, toGeminiLoop_roles _ _, ?_, ?_⟩
  · simp [toAnthropicLoop, hs, ha]
  · simp [toGeminiLoop, hs, ha]

/-- Witness for `vendor_turn_roles`: a body containing a `tool`-role message. -/
theorem vendor_turn_roles_witness :
    ((Message.mk "tool" (.str "t")).role ≠ "system")
      ∧ ((Message.mk "tool" (.str "t")).role ≠ "assistant")
      ∧ (∀ m ∈ (OpenAIAdapter.toAnthropic
            ⟨some "m", some [⟨"tool", .str "t"⟩, ⟨"assistant", .str "a"⟩, ⟨"system", .str "s"⟩],
              none, false, none, none, none, none, false⟩).messages,
          m.role = "user" ∨ m.role = "assistant")
      ∧ (toAnthropicLoop [⟨"tool", .str "t"⟩] "").2.head? = some ⟨"user", .str "t"⟩ := by
  have h := vendor_turn_roles
    ⟨some "m", some [⟨"tool", .str "t"⟩, ⟨"assistant", .str "a"⟩, ⟨"system", .str "s"⟩],
      none, false, none, none, none, none, false⟩
    ⟨"tool", .str "t"⟩ [] "" (by decide) (by decide)
  exact ⟨by decide, by decide, h.1, h.2.2.1⟩

/-! ### Spec-side token-estimate definitions (claim wording) -/

/-- Per-character cost as the spec words it: a CJK character costs `1/1.5`
of a token, any other character costs `1/4`. -/
def charCost (c : Char) : ℚ := if isCJK c then 1 / 1.5 else 1 / 4

/-- The exact (un-rounded) cost of one text segment, charging each character. -/
def segmentCostQ : Option String → ℚ
  | none => 0
  | some s => (s.data.map charCost).sum

/-- The text segments contributed by one OpenAI-format message: a string
content is one segment; an array content contributes its `text`-typed parts. -/
def msgSegs (msg : Message) : List (Option String) :=
  match msg.content with
  | .str s => [some s]
  | .parts l => l.filterMap (fun p => if p.type = "text" then some p.text else none)

/-- The text segments of the OpenAI-format messages, in order. -/
def messageTextSegments (msgs : List Message) : List (Option String) :=
  msgs.flatMap msgSegs

/-- The text segments contributed by one Gemini-format `contents` entry. -/
def gemSegs (c : GeminiContent) : List (Option String) :=
  (c.parts.getD []).filterMap (fun p => if jsTruthyStr p.text then some p.text else none)

/-- The text segments of the Gemini-format `contents`, in order. -/
def geminiTextSegments (cs : List GeminiContent) : List (Option String) :=
  cs.flatMap gemSegs

/-- All text segments of a request body, in order. -/
def messageSegments (body : Body) : List (Option String) :=
  messageTextSegments (body.messages.getD []) ++ geminiTextSegments (body.contents.getD [])

/-- The estimate as the claim words it: sum the exact per-character costs of
all text segments and round up once at the end. -/
def specSingleCeilEstimate (body : Body) : ℕ :=
  jsCeil (((messageSegments body).map segmentCostQ).sum)

lemma length_filter_not_isCJK (l : List Char) :
    (l.filter (fun c => !isCJK c)).length = l.length - (l.filter isCJK).length := by
  induction l with
  | nil => rfl
  | cons c l ih =>
    have hle : (l.filter isCJK).length ≤ l.length := l.length_filter_le isCJK
    by_cases hc : isCJK c
    · simp [List.filter_cons, hc, ih]
    · simp [List.filter_cons, hc, ih]
      omega

lemma charCost_sum (l : List Char) :
    (l.map charCost).sum
      = ((l.filter isCJK).length : ℚ) / 1.5
        + ((l.filter (fun c => !isCJK c)).length : ℚ) / 4 := by
  induction l with
  | nil => simp
  | cons c l ih =>
    rw [List.map_cons, List.sum_cons, ih]
    by_cases hc : isCJK c
    · simp [charCost, hc, List.filter_cons]
      ring
    · simp [charCost, hc, List.filter_cons]
      ring

/-- The per-character spec cost of a segment agrees with the count-based
formula of the source. -/
lemma segmentCostQ_counts (s : String) :
    segmentCostQ (some s)
      = (countCJK s : ℚ) / 1.5 + ((s.length - countCJK s : ℕ) : ℚ) / 4 := by
  rw [segmentCostQ, charCost_sum, length_filter_not_isCJK]
  rfl

/-- The source's per-segment token estimate is the ceiling of the spec's
exact per-character segment cost. -/
lemma estimateTokens_eq_segmentCost (t : Option String) :
    estimateTokens t = jsCeil (segmentCostQ t) := by
  match t with
  | none => simp [estimateTokens, segmentCostQ, jsCeil]
  | some s =>
    rw [segmentCostQ_counts]
    by_cases hs : s = ""
    · subst hs
      simp [estimateTokens, countCJK, jsCeil]
    · simp [estimateTokens, hs]

lemma parts_estimate_eq_segs (l : List ContentPart) :
    (l.map (fun part =>
        if part.type = "text" then estimateTokens part.text else 0)).sum
      = ((l.filterMap (fun p => if p.type = "text" then some p.text else none)).map
          (fun t => jsCeil (segmentCostQ t))).sum := by
  induction l with
  | nil => rfl
  | cons p pl ih =>
    by_cases hp : p.type = "text"
    · simp only [List.map_cons, List.sum_cons, List.filterMap_cons, hp, if_true,
        ite_true, reduceIte]
      rw [estimateTokens_eq_segmentCost, ih]
    · simp only [List.map_cons, List.sum_cons, List.filterMap_cons, hp, ite_false,
        if_false, reduceIte]
      rw [ih]
      simp [hp]

lemma gemParts_estimate_eq_segs (l : List GeminiPart) :
    (l.map (fun part =>
        if jsTruthyStr part.text then estimateTokens part.text else 0)).sum
      = ((l.filterMap (fun p => if jsTruthyStr p.text then some p.text else none)).map
          (fun t => jsCeil (segmentCostQ t))).sum := by
  induction l with
  | nil => rfl
  | cons p pl ih =>
    by_cases hp : jsTruthyStr p.text
    · simp only [List.map_cons, List.sum_cons, List.filterMap_cons, hp, if_true,
        ite_true, reduceIte]
      rw [estimateTokens_eq_segmentCost, ih]
    · simp only [List.map_cons, List.sum_cons, List.filterMap_cons, hp, ite_false,
        if_false, reduceIte]
      rw [ih]
      simp [hp]

/-- The per-message sum of the source's loop equals the per-segment-ceiling
sum over that message's segments. -/
lemma msg_estimate_eq_segs (msg : Message) :
    (match msg.content with
      | .str s => estimateTokens (some s)
      | .parts l =>
        (l.map (fun part =>
          if part.type = "text" then estimateTokens part.text else 0)).sum)
      = ((msgSegs msg).map (fun t => jsCeil (segmentCostQ t))).sum := by
  match h : msg.content with
  | .str s => simp [msgSegs, h, estimateTokens_eq_segmentCost]
  | .parts l =>
    simp only [msgSegs, h]
    exact parts_estimate_eq_segs l

/-- The per-entry sum of the source's Gemini loop equals the
per-segment-ceiling sum over that entry's segments. -/
lemma gem_estimate_eq_segs (c : GeminiContent) :
    ((c.parts.getD []).map (fun part =>
        if jsTruthyStr part.text then estimateTokens part.text else 0)).sum
      = ((gemSegs c).map (fun t => jsCeil (segmentCostQ t))).sum := by
  simp only [gemSegs]
  exact gemParts_estimate_eq_segs _

/-- C2 (amended): the input-token estimate equals the sum, over all text
segments of all messages, of the ceiling of that segment's exact
per-character cost — the ceiling is applied once per segment and the
ceilinged values are summed, not a single ceiling after the whole sum. -/
theorem estimateInputTokens_per_segment_ceiling (body : Body) :
    estimateInputTokens body
      = ((messageSegments body).map (fun t => jsCeil (segmentCostQ t))).sum := by
  have hmsg : ∀ msgs : List Message,
      (msgs.map (fun msg =>
        match msg.content with
        | .str s => estimateTokens (some s)
        | .parts l =>
          (l.map (fun part =>
            if part.type = "text" then estimateTokens part.text else 0)).sum)).sum
      = ((messageTextSegments msgs).map (fun t => jsCeil (segmentCostQ t))).sum := by
    intro msgs
    induction msgs with
    | nil => rfl
    | cons msg rest ih =>
      have hcons : messageTextSegments (msg :: rest)
          = msgSegs msg ++ messageTextSegments rest := by
        simp [messageTextSegments]
      rw [List.map_cons, List.sum_cons, hcons, List.map_append, List.sum_append,
        ih, msg_estimate_eq_segs]
  have hgem : ∀ cs : List GeminiContent,
      (cs.map (fun content =>
        ((content.parts.getD []).map (fun part =>
          if jsTruthyStr part.text then estimateTokens part.text else 0)).sum)).sum
      = ((geminiTextSegments cs).map (fun t => jsCeil (segmentCostQ t))).sum := by
    intro cs
    induction cs with
    | nil => rfl
    | cons c rest ih =>
      have hcons : geminiTextSegments (c :: rest)
          = gemSegs c ++ geminiTextSegments rest := by
        simp [geminiTextSegments]
      rw [List.map_cons, List.sum_cons, hcons, List.map_append, List.sum_append,
        ih, gem_estimate_eq_segs]
  rw [estimateInputTokens, messageSegments, List.map_append, List.sum_append]
  match hm : body.messages, hc : body.contents with
  | none, none => simp [messageTextSegments, geminiTextSegments]
  | none, some cs => simp [messageTextSegments, hgem cs]
  | some msgs, none => simp [geminiTextSegments, hmsg msgs]
  | some msgs, some cs => simp [hmsg msgs, hgem cs]

/-- C2 (counterexample to the single-ceiling reading): on the body with two
user messages `"a"` and `"b"` the code's estimate is `2` (one ceiling per
segment), while summing the exact costs and rounding up once gives `1`. -/
theorem estimate_single_ceiling_cx :
    estimateInputTokens
        ⟨some "m", some [⟨"user", .str "a"⟩, ⟨"user", .str "b"⟩],
          none, false, none, none, none, none, false⟩ = 2
      ∧ specSingleCeilEstimate
          ⟨some "m", some [⟨"user", .str "a"⟩, ⟨"user", .str "b"⟩],
            none, false, none, none, none, none, false⟩ = 1 := by
  constructor
  · rw [show estimateInputTokens
        ⟨some "m", some [⟨"user", .str "a"⟩, ⟨"user", .str "b"⟩],
          none, false, none, none, none, none, false⟩
        = estimateTokens (some "a") + estimateTokens (some "b") by
          simp [estimateInputTokens]]
    rw [estimateTokens_eq, estimateTokens_eq]
    decide
  · have hsum : ((messageSegments
        ⟨some "m", some [⟨"user", .str "a"⟩, ⟨"user", .str "b"⟩],
          none, false, none, none, none, none, false⟩).map segmentCostQ).sum
        = ((6 : ℕ) : ℚ) / 12 := by
      have hseg : messageSegments
          ⟨some "m", some [⟨"user", .str "a"⟩, ⟨"user", .str "b"⟩],
            none, false, none, none, none, none, false⟩
          = [some "a", some "b"] := rfl
      rw [hseg]
      have ha : segmentCostQ (some "a") = 1 / 4 := by
        have h1 : isCJK 'a' = false := by decide
        simp [segmentCostQ, charCost, h1]
      have hb : segmentCostQ (some "b") = 1 / 4 := by
        have h1 : isCJK 'b' = false := by decide
        simp [segmentCostQ, charCost, h1]
      rw [List.map_cons, List.map_cons, List.map_nil, List.sum_cons,
        List.sum_cons, List.sum_nil, ha, hb]
      norm_num
    rw [specSingleCeilEstimate, hsum, jsCeil_div_twelve]

lemma countCJK_append (s t : String) :
    countCJK (s ++ t) = countCJK s + countCJK t := by
  simp [countCJK, String.data_append, List.filter_append]

lemma countCJK_le_length (s : String) : countCJK s ≤ s.length := by
  have h : s.length = s.data.length := rfl
  rw [h]
  exact s.data.length_filter_le isCJK

lemma string_length_zero (s : String) (h : s.length = 0) : s = "" := by
  have hd : s.data = [] := List.length_eq_zero.mp h
  cases s
  simp_all

/-- C8 (counterexample to whitespace-invariance): `"aaaa"` estimates to `1`
but `"aaaa        "` — the same text with eight spaces appended, differing
only in whitespace — estimates to `3`: a gap of `2`, more than any single
round-up can account for. -/
theorem estimate_whitespace_cx :
    estimateTokens (some "aaaa") = 1
      ∧ estimateTokens (some ("aaaa" ++ "        ")) = 3 := by
  constructor
  · rw [estimateTokens_eq]; decide
  · rw [estimateTokens_eq]; decide

/-- C8 (amended): the token estimate is monotonic in text length (appending
characters never decreases it), and it depends only on the number of CJK
characters and the total length — so replacing whitespace by any other
non-CJK characters preserves it exactly — but whitespace characters are
charged `1/4` token like any other non-CJK character, so whitespace-only
insertions can change the estimate beyond the effect of rounding. -/
theorem estimateTokens_monotone_count_determined :
    (∀ s t : String, estimateTokens (some s) ≤ estimateTokens (some (s ++ t)))
      ∧ (∀ s t : String, countCJK s = countCJK t → s.length = t.length →
          estimateTokens (some s) = estimateTokens (some t)) := by
  constructor
  · intro s t
    by_cases hs : s = ""
    · subst hs
      rw [show estimateTokens (some "") = 0 from by rw [estimateTokens_eq]; simp]
      exact Nat.zero_le _
    · have hst : s ++ t ≠ "" := by
        intro h
        apply hs
        apply string_length_zero
        have := congrArg String.length h
        rw [String.length_append] at this
        simpa using Nat.eq_zero_of_add_eq_zero_right this
      rw [estimateTokens_eq, estimateTokens_eq, if_neg hs, if_neg hst,
        countCJK_append, String.length_append]
      have h1 := countCJK_le_length s
      have h2 := countCJK_le_length t
      omega
  · intro s t hc hl
    by_cases hs : s = ""
    · subst hs
      have ht : t = "" := string_length_zero t (by simpa using hl.symm)
      subst ht
      rfl
    · have ht : t ≠ "" := by
        intro h
        subst h
        exact hs (string_length_zero s (by simpa using hl))
      rw [estimateTokens_eq, estimateTokens_eq, if_neg hs, if_neg ht, hc, hl]

/-- Witness for `estimateTokens_monotone_count_determined`: concrete
monotone instance, and two equal-length all-non-CJK texts with equal
estimates. -/
theorem estimateTokens_monotone_witness :
    estimateTokens (some "ab") ≤ estimateTokens (some ("ab" ++ "cd"))
      ∧ countCJK "ab cd" = countCJK "abecd"
      ∧ String.length "ab cd" = String.length "abecd"
      ∧ estimateTokens (some "ab cd") = estimateTokens (some "abecd") :=
  ⟨estimateTokens_monotone_count_determined.1 "ab" "cd",
    by decide, by decide,
    estimateTokens_monotone_count_determined.2 "ab cd" "abecd"
      (by decide) (by decide)⟩

/-- C6 (counterexample to universal lower-casing): an Anthropic response with
the unmapped finish reason `"MAX_TOKENS"` is normalized with the reason
passed through unchanged, not lower-cased to `"max_tokens"`. -/
theorem finish_reason_lowercase_cx :
    (anthropicToOpenAI 0 ⟨none, none, none, some "MAX_TOKENS", none⟩).choices.map
        (fun ch => ch.finish_reason) = [some "MAX_TOKENS"]
      ∧ jsToLowerCase "MAX_TOKENS" = "max_tokens"
      ∧ "MAX_TOKENS" ≠ "max_tokens" := by
  refine ⟨?_, ?_, by decide⟩
  · simp [anthropicToOpenAI]
  · rfl

/-- C6 (amended): the inbound normalization maps VendorA's `end_turn` and
VendorC's `STOP` to `stop`; an unmapped VendorC reason passes through
lower-cased, while an unmapped VendorA reason passes through unchanged
(not lower-cased); no reason causes an error. -/
theorem finish_reason_mapping (aresp : AnthropicResponse) (g : GeminiResponse)
    (now : ℕ) (c : GeminiCandidate) (cs : List GeminiCandidate) (r : String)
    (hg : g.candidates = some (c :: cs)) :
    ((anthropicToOpenAI now { aresp with stop_reason := some "end_turn" }).choices.map
        (fun ch => ch.finish_reason) = [some "stop"])
      ∧ (r ≠ "end_turn" →
          (anthropicToOpenAI now { aresp with stop_reason := some r }).choices.map
            (fun ch => ch.finish_reason) = [some r])
      ∧ (c.finishReason = some "STOP" →
          (geminiToOpenAI now g).choices.map (fun ch => ch.finish_reason) = [some "stop"])
      ∧ (∀ r2, c.finishReason = some r2 → r2 ≠ "STOP" →
          (geminiToOpenAI now g).choices.map (fun ch => ch.finish_reason)
            = [some (jsToLowerCase r2)]) := by
  refine ⟨?_, ?_, ?_, ?_⟩
  · simp [anthropicToOpenAI]
  · intro hr
    simp [anthropicToOpenAI, hr]
  · intro hf
    simp [geminiToOpenAI, hg, hf]
  · intro r2 hf hr2
    simp [geminiToOpenAI, hg, hf, hr2]

/-- Witness for `finish_reason_mapping` at concrete responses and the
concrete unmapped reason `"MAX_TOKENS"`. -/
theorem finish_reason_mapping_witness :
    (GeminiResponse.candidates ⟨some [⟨none, some "MAX_TOKENS"⟩], none, none⟩
        = some ([(⟨none, some "MAX_TOKENS"⟩ : GeminiCandidate)] ))
      ∧ ("MAX_TOKENS" ≠ "end_turn")
      ∧ ((anthropicToOpenAI 7 { (⟨none, none, none, none, none⟩ : AnthropicResponse)
            with stop_reason := some "MAX_TOKENS" }).choices.map
          (fun ch => ch.finish_reason) = [some "MAX_TOKENS"])
      ∧ ((geminiToOpenAI 7 ⟨some [⟨none, some "MAX_TOKENS"⟩], none, none⟩).choices.map
          (fun ch => ch.finish_reason) = [some (jsToLowerCase "MAX_TOKENS")]) := by
  have h := finish_reason_mapping ⟨none, none, none, none, none⟩
    ⟨some [⟨none, some "MAX_TOKENS"⟩], none, none⟩ 7
    ⟨none, some "MAX_TOKENS"⟩ [] "MAX_TOKENS" rfl
  exact ⟨rfl, by decide, h.2.1 (by decide), h.2.2.2 "MAX_TOKENS" rfl (by decide)⟩

/-- The canonical `model` field carried by one output chunk of the
transformed stream (`none` when the chunk has no model field). -/
def chunkModel : OutChunk → Option String
  | .canonical c => c.model
  | .passthrough e => e.model
  | .doneMark => none

/-- C9 (counterexample): on an OpenAI-format channel with an upstream
model-name override, a streamed chunk is passed through carrying the
upstream's internal model name `internal-v9`, not the requested
identifier `gpt-x`. -/
theorem response_model_cx :
    (handleChatCompletions
        ⟨some ⟨"u1", 0, false⟩,
          ⟨fun mid => if mid = "gpt-x" then
              some ⟨"gpt-x", "ch", some "internal-v9", none, none, true⟩ else none,
            fun cid => if cid = "ch" then some ⟨"openai", "", true⟩ else none⟩,
          true, 0, [.openai ⟨some "internal-v9", none⟩],
          ⟨none, none, none, none, none⟩, ⟨none, none, none⟩,
          ⟨none, "", 0, none, [], none⟩⟩
        ⟨some "gpt-x", none, none, true, none, none, none, none, false⟩).response
        = .streamResp [.passthrough ⟨some "internal-v9", none⟩]
      ∧ chunkModel (.passthrough ⟨some "internal-v9", none⟩) = some "internal-v9"
      ∧ ("internal-v9" : String) ≠ "gpt-x" := by
  refine ⟨?_, rfl, by decide⟩
  simp [handleChatCompletions, getModelConfig, calculateCost,
    ProviderType.OPENAI, ProviderType.ANTHROPIC, ProviderType.GEMINI,
    runStream, streamTransformLine]

/-- C9 (amended): the non-stream response's model field is always forced to
the requested identifier; streamed canonical chunks built by the Anthropic
and Gemini branches carry the configured model identifier (the Anthropic
finish chunk carries no model field at all), but OpenAI-format stream
chunks are passed through unchanged, keeping the upstream's own model
field even when an upstream model-name override is configured. -/
theorem response_model_field (env : HandlerEnv) (body : Body) (user : User)
    (modelId : String) (model : ModelConfig) (channel : ChannelConfig)
    (mid2 : String) (now2 : ℕ) (st : StreamUsage) (line : StreamLine)
    (e : OpenAIChunkEv)
    (hauth : env.authUser = some user) (hblk : user.is_blocked = false)
    (hmid : body.model = some modelId)
    (hcfg : getModelConfig env.kv modelId = some (model, channel))
    (hb : ¬user.balance < calculateCost model (estimateInputTokens body : ℚ) 100)
    (hprov : channel.provider = ProviderType.OPENAI
      ∨ channel.provider = ProviderType.ANTHROPIC
      ∨ channel.provider = ProviderType.GEMINI)
    (hstream : body.stream = false) :
    (∃ r, (handleChatCompletions env body).response = .jsonResp r
        ∧ r.model = some modelId)
      ∧ (∀ c ∈ (streamTransformLine ProviderType.ANTHROPIC mid2 now2 st line).2,
          chunkModel c = some mid2 ∨ chunkModel c = none)
      ∧ (∀ c ∈ (streamTransformLine ProviderType.GEMINI mid2 now2 st line).2,
          chunkModel c = some mid2 ∨ c = .doneMark)
      ∧ (streamTransformLine ProviderType.OPENAI mid2 now2 st (.openai e)).2
          = [.passthrough e] := by
  refine ⟨?_, ?_, ?_, ?_⟩
  · have hcond : ¬(channel.provider ≠ ProviderType.OPENAI
        ∧ channel.provider ≠ ProviderType.ANTHROPIC
        ∧ channel.provider ≠ ProviderType.GEMINI) := by
      rcases hprov with h | h | h <;> simp [h]
    simp only [handleChatCompletions, hauth, hblk, hmid, hcfg, if_neg hb,
      if_neg hcond, hstream, Bool.false_eq_true, if_false, Bool.false_eq_true]
    exact ⟨_, rfl, rfl⟩
  · intro c hc
    match line with
    | .done =>
      simp only [streamTransformLine, List.mem_singleton] at hc
      subst hc
      exact Or.inr rfl
    | .anthropic ev =>
      match ev with
      | .contentBlockDelta message deltaText =>
        simp only [streamTransformLine, reduceIte] at hc
        by_cases ht : jsTruthyStr deltaText
        · simp only [ht, if_true, List.mem_singleton, reduceIte] at hc
          subst hc
          exact Or.inl rfl
        · simp [ht] at hc
      | .messageDelta stopReason usage =>
        simp only [streamTransformLine, reduceIte, List.mem_singleton] at hc
        subst hc
        exact Or.inr rfl
      | .messageStart message =>
        match message with
        | none => simp [streamTransformLine] at hc
        | some m =>
          simp only [streamTransformLine, reduceIte, List.mem_singleton] at hc
          subst hc
          exact Or.inl rfl
      | .otherType => simp [streamTransformLine] at hc
    | .gemini ev => simp [streamTransformLine, ProviderType.ANTHROPIC,
        ProviderType.GEMINI] at hc
    | .openai ev => simp [streamTransformLine, ProviderType.ANTHROPIC,
        ProviderType.OPENAI, ProviderType.GEMINI] at hc
  · intro c hc
    match line with
    | .done =>
      simp only [streamTransformLine, List.mem_singleton] at hc
      subst hc
      exact Or.inr rfl
    | .anthropic ev => simp [streamTransformLine, ProviderType.ANTHROPIC,
        ProviderType.GEMINI] at hc
    | .gemini ev =>
      simp only [streamTransformLine, reduceIte] at hc
      by_cases ht : jsTruthyStr ev.candText
      · match hu : ev.usageMetadata with
        | none =>
          simp only [hu, ht, if_true, List.mem_singleton, reduceIte] at hc
          subst hc
          exact Or.inl rfl
        | some u =>
          simp only [hu, ht, if_true, List.mem_singleton, reduceIte] at hc
          subst hc
          exact Or.inl rfl
      · match hu : ev.usageMetadata with
        | none => simp [hu, ht] at hc
        | some u => simp [hu, ht] at hc
    | .openai ev => simp [streamTransformLine, ProviderType.OPENAI,
        ProviderType.ANTHROPIC, ProviderType.GEMINI] at hc
  · simp [streamTransformLine, ProviderType.OPENAI, ProviderType.ANTHROPIC,
      ProviderType.GEMINI]

/-- Witness for `response_model_field`: a non-stream request on an
OpenAI-format channel whose upstream reply names a different model. -/
theorem response_model_field_witness :
    (¬(User.balance ⟨"u1", 0, false⟩
        < calculateCost ⟨"m2", "ch", some "internal", none, none, true⟩
          (estimateInputTokens
            ⟨some "m2", none, none, false, none, none, none, none, false⟩ : ℚ) 100))
      ∧ (∃ r, (handleChatCompletions
          ⟨some ⟨"u1", 0, false⟩,
            ⟨fun mid => if mid = "m2" then
                some ⟨"m2", "ch", some "internal", none, none, true⟩ else none,
              fun cid => if cid = "ch" then some ⟨"openai", "", true⟩ else none⟩,
            true, 0, [], ⟨none, none, none, none, none⟩, ⟨none, none, none⟩,
            ⟨none, "", 0, some "internal", [], none⟩⟩
          ⟨some "m2", none, none, false, none, none, none, none, false⟩).response
            = .jsonResp r ∧ r.model = some "m2")
      ∧ (streamTransformLine ProviderType.OPENAI "m2" 0 ⟨0, 0⟩
          (.openai ⟨some "internal", none⟩)).2
          = [.passthrough ⟨some "internal", none⟩] := by
  have hb : ¬(User.balance ⟨"u1", 0, false⟩
      < calculateCost ⟨"m2", "ch", some "internal", none, none, true⟩
        (estimateInputTokens
          ⟨some "m2", none, none, false, none, none, none, none, false⟩ : ℚ) 100) := by
    simp [calculateCost, User.balance]
  have h := response_model_field
    ⟨some ⟨"u1", 0, false⟩,
      ⟨fun mid => if mid = "m2" then
          some ⟨"m2", "ch", some "internal", none, none, true⟩ else none,
        fun cid => if cid = "ch" then some ⟨"openai", "", true⟩ else none⟩,
      true, 0, [], ⟨none, none, none, none, none⟩, ⟨none, none, none⟩,
      ⟨none, "", 0, some "internal", [], none⟩⟩
    ⟨some "m2", none, none, false, none, none, none, none, false⟩
    ⟨"u1", 0, false⟩ "m2" ⟨"m2", "ch", some "internal", none, none, true⟩
    ⟨"openai", "", true⟩ "m2" 0 ⟨0, 0⟩ .done ⟨some "internal", none⟩
    rfl rfl rfl rfl hb (Or.inl rfl) rfl
  exact ⟨hb, h.1, h.2.2.2⟩

/-- C1 (counterexample): on an Anthropic-channel stream whose vendor events
do supply a usage block (`input_tokens 7`, `output_tokens 9`), the
re-encoder accumulates `(7, 9)`, yet the scheduled settlement records the
pre-flight input estimate with the fixed 500-output-token placeholder
`(0, 500)` — the accumulated vendor usage is not used. -/
theorem stream_settlement_cx :
    (runStream ProviderType.ANTHROPIC "m3" 0 ⟨0, 0⟩
        [.anthropic (.messageDelta (some "end_turn") (some ⟨some 7, some 9⟩)),
          .done]).1 = ⟨7, 9⟩
      ∧ (handleChatCompletions
          ⟨some ⟨"u1", 0, false⟩,
            ⟨fun mid => if mid = "m3" then
                some ⟨"m3", "ch", none, none, none, true⟩ else none,
              fun cid => if cid = "ch" then some ⟨"anthropic", "", true⟩ else none⟩,
            true, 0,
            [.anthropic (.messageDelta (some "end_turn") (some ⟨some 7, some 9⟩)),
              .done],
            ⟨none, none, none, none, none⟩, ⟨none, none, none⟩,
            ⟨none, "", 0, none, [], none⟩⟩
          ⟨some "m3", none, none, true, none, none, none, none, false⟩).settlements.map
          (fun s => (s.inputTokens, s.outputTokens)) = [(0, 500)]
      ∧ ((0 : ℕ), (500 : ℕ)) ≠ ((7 : ℕ), (9 : ℕ)) := by
  refine ⟨by decide, ?_, by decide⟩
  simp [handleChatCompletions, getModelConfig, calculateCost,
    ProviderType.OPENAI, ProviderType.ANTHROPIC, ProviderType.GEMINI,
    estimateInputTokens]

/-- C1 (amended): for every admitted streaming request on a platform
providing `waitUntil`, the asynchronous settlement is scheduled at dispatch
time and always debits and records the pre-flight input-token estimate
together with the fixed placeholder of 500 output tokens — whatever usage
the stream re-encoder accumulates (vendor-supplied or estimated) is never
used for settlement, as witnessed by the settlement being independent of
the vendor's event stream. -/
theorem stream_settlement_fixed_placeholder (env : HandlerEnv) (body : Body)
    (user : User) (modelId : String) (model : ModelConfig) (channel : ChannelConfig)
    (hauth : env.authUser = some user) (hblk : user.is_blocked = false)
    (hmid : body.model = some modelId)
    (hcfg : getModelConfig env.kv modelId = some (model, channel))
    (hb : ¬user.balance < calculateCost model (estimateInputTokens body : ℚ) 100)
    (hprov : channel.provider = ProviderType.OPENAI
      ∨ channel.provider = ProviderType.ANTHROPIC
      ∨ channel.provider = ProviderType.GEMINI)
    (hstream : body.stream = true) (hwait : env.hasWaitUntil = true) :
    (handleChatCompletions env body).settlements
        = [⟨user.uid, modelId, estimateInputTokens body, 500,
            calculateCost model (estimateInputTokens body : ℚ) 500⟩]
      ∧ ∀ alt : List StreamLine,
          (handleChatCompletions { env with upstreamStream := alt } body).settlements
            = [⟨user.uid, modelId, estimateInputTokens body, 500,
                calculateCost model (estimateInputTokens body : ℚ) 500⟩] := by
  have hcond : ¬(channel.provider ≠ ProviderType.OPENAI
      ∧ channel.provider ≠ ProviderType.ANTHROPIC
      ∧ channel.provider ≠ ProviderType.GEMINI) := by
    rcases hprov with h | h | h <;> simp [h]
  constructor
  · simp only [handleChatCompletions, hauth, hblk, hmid, hcfg, if_neg hb,
      if_neg hcond, hstream, hwait, if_true, Bool.false_eq_true, if_false]
    norm_cast
  · intro alt
    simp only [handleChatCompletions, hauth, hblk, hmid, hcfg, if_neg hb,
      if_neg hcond, hstream, hwait, if_true, Bool.false_eq_true, if_false]
    norm_cast

/-- Witness for `stream_settlement_fixed_placeholder`: a concrete admitted
Gemini-channel streaming request whose vendor stream carries a usage block. -/
theorem stream_settlement_fixed_placeholder_witness :
    (¬(User.balance ⟨"u2", 5, false⟩
        < calculateCost ⟨"g1", "gc", none, none, none, true⟩
          (estimateInputTokens
            ⟨some "g1", none, none, true, none, none, none, none, false⟩ : ℚ) 100))
      ∧ (handleChatCompletions
          ⟨some ⟨"u2", 5, false⟩,
            ⟨fun mid => if mid = "g1" then
                some ⟨"g1", "gc", none, none, none, true⟩ else none,
              fun cid => if cid = "gc" then some ⟨"gemini", "", true⟩ else none⟩,
            true, 0, [.gemini ⟨some "Hi", some "STOP", some ⟨some 3, some 4, some 7⟩⟩],
            ⟨none, none, none, none, none⟩, ⟨none, none, none⟩,
            ⟨none, "", 0, none, [], none⟩⟩
          ⟨some "g1", none, none, true, none, none, none, none, false⟩).settlements
          = [⟨"u2", "g1",
              estimateInputTokens
                ⟨some "g1", none, none, true, none, none, none, none, false⟩, 500,
              calculateCost ⟨"g1", "gc", none, none, none, true⟩
                (estimateInputTokens
                  ⟨some "g1", none, none, true, none, none, none, none, false⟩ : ℚ)
                500⟩] := by
  have hb : ¬(User.balance ⟨"u2", 5, false⟩
      < calculateCost ⟨"g1", "gc", none, none, none, true⟩
        (estimateInputTokens
          ⟨some "g1", none, none, true, none, none, none, none, false⟩ : ℚ) 100) := by
    simp [calculateCost, User.balance]
  refine ⟨hb, ?_⟩
  exact (stream_settlement_fixed_placeholder
    ⟨some ⟨"u2", 5, false⟩,
      ⟨fun mid => if mid = "g1" then
          some ⟨"g1", "gc", none, none, none, true⟩ else none,
        fun cid => if cid = "gc" then some ⟨"gemini", "", true⟩ else none⟩,
      true, 0, [.gemini ⟨some "Hi", some "STOP", some ⟨some 3, some 4, some 7⟩⟩],
      ⟨none, none, none, none, none⟩, ⟨none, none, none⟩,
      ⟨none, "", 0, none, [], none⟩⟩
    ⟨some "g1", none, none, true, none, none, none, none, false⟩
    ⟨"u2", 5, false⟩ "g1" ⟨"g1", "gc", none, none, none, true⟩
    ⟨"gemini", "", true⟩ rfl rfl rfl rfl hb (Or.inr (Or.inr rfl)) rfl rfl).1
